import Mathlib

/-!
Verification development for the family-account expense-tracking service.

The client (a Vue single-page view) keeps a list of rendered records, a
popup-visibility flag and a form draft; `saveRecord` issues a `POST` whose
query string is built by raw template-literal interpolation, and `fetchData`
issues a `GET` and replaces the rendered list with the response.  The backend
(record store and ledger query service) is specified by the design document:
its create operation validates the amount and the category, assigns a fresh
monotone identifier and an insertion timestamp, and appends the record; its
list operation returns all records in insertion order.

Client definitions are transliterated from the Vue component; the server
definitions are marked `Modelled from the spec:` because the backend sources
are not part of this repository snapshot.
-/

instance {ε α : Type} [DecidableEq ε] [DecidableEq α] : DecidableEq (Except ε α) := fun x y =>
  match x, y with
  | .ok a, .ok b => decidable_of_iff (a = b) (by simp)
  | .error e, .error f => decidable_of_iff (e = f) (by simp)
  | .ok _, .error _ => isFalse (fun h => Except.noConfusion h)
  | .error _, .ok _ => isFalse (fun h => Except.noConfusion h)

/-- The transaction type of a ledger record: `expense`(支出) or `income`(收入). -/
inductive TxType where
  | expense
  | income
deriving DecidableEq, Repr

/-- A persisted Transaction Record, the sole entity of the data model:
`id`, `amount` (kept in cents, a currency-safe integral representation),
`category`, `note`, `type`, `created_at`. -/
structure Record where
  id : Nat
  amount : Nat
  category : String
  note : String
  type : TxType
  createdAt : Nat
deriving DecidableEq, Repr

/-- Modelled from the spec: the Record Store state — the materialized ordered
collection of records plus the next identifier to assign and a logical clock
used for `created_at` stamps. -/
structure Store where
  recs : List Record
  nextId : Nat
  clock : Nat
deriving DecidableEq, Repr

/-- Modelled from the spec: the error taxonomy — `ValidationError` for
caller-supplied data violating a field constraint, `PersistenceError` for a
backing store that could not complete a read or write. -/
inductive LedgerError where
  | validation
  | persistence
deriving DecidableEq, Repr

/-- Modelled from the spec: raw create input as received at the boundary —
textual `amount`, `category`, optional `note` (absent = empty string) and
optional `type` (defaults to `expense`). -/
structure RawInput where
  amount : String
  category : String
  note : String
  type : Option TxType
deriving DecidableEq, Repr

/-- Remove leading and trailing whitespace from a character list. -/
def trimChars (l : List Char) : List Char :=
  ((l.dropWhile Char.isWhitespace).reverse.dropWhile Char.isWhitespace).reverse

/-- Modelled from the spec: whitespace trimming of a text field, written at
character level so that it evaluates. -/
def strTrim (s : String) : String :=
  (trimChars s.data).asString

/-- Decimal digit test used by the amount format check. -/
def isDigitCh (c : Char) : Bool :=
  '0' ≤ c && c ≤ '9'

/-- Value of a digit list, most significant first. -/
def digitsToNat (acc : Nat) : List Char → Nat
  | [] => acc
  | c :: cs => digitsToNat (acc * 10 + (c.toNat - '0'.toNat)) cs

/-- Modelled from the spec: parse an external amount as a non-negative decimal
with at most two fractional digits, returning the value in cents; any
non-numeric text (including a leading minus sign) or excess precision is
rejected with `none`. -/
def parseAmountCents (s : String) : Option Nat :=
  let cs := s.data
  let intPart := cs.takeWhile isDigitCh
  let rest := cs.dropWhile isDigitCh
  if intPart = [] then none
  else
    match rest with
    | [] => some (digitsToNat 0 intPart * 100)
    | '.' :: frac =>
      if frac ≠ [] ∧ frac.length ≤ 2 ∧ frac.all isDigitCh then
        some (digitsToNat 0 intPart * 100 +
              digitsToNat 0 frac * (if frac.length = 1 then 10 else 1))
      else none
    | _ => none

/-- Modelled from the spec: `create_transaction` — validates the caller input
(amount must parse as a non-negative decimal, category must be non-empty after
trimming), applies defaults (`type` defaults to expense) and, when the backing
store is available (`storeOk`), performs the single atomic durable write:
the record is appended with the next identifier and the current clock stamp.
A validation failure is rejected at the boundary, before the store is
consulted; a store failure surfaces `PersistenceError` and writes nothing. -/
def create_transaction (inp : RawInput) (storeOk : Bool) (st : Store) :
    Except LedgerError (Record × Store) :=
  match parseAmountCents inp.amount with
  | none => .error .validation
  | some a =>
    if strTrim inp.category = "" then .error .validation
    else if storeOk then
      let r : Record :=
        { id := st.nextId, amount := a, category := inp.category,
          note := inp.note, type := inp.type.getD .expense,
          createdAt := st.clock }
      .ok (r, { recs := st.recs ++ [r], nextId := st.nextId + 1,
                clock := st.clock + 1 })
    else .error .persistence

/-- Modelled from the spec: `list_transactions` — forwards directly to the
Record Store `list_all`, returning every persisted record in insertion order
with no filtering; when the backing store is unavailable the read fails with
an explicit `PersistenceError` rather than an empty-looking success. -/
def list_transactions (storeOk : Bool) (st : Store) :
    Except LedgerError (List Record) :=
  if storeOk then .ok st.recs else .error .persistence

/-- Modelled from the spec: the store states reachable from the initial empty
store (`id` assignment starting at 1) by successful create operations. -/
inductive Reachable : Store → Prop where
  | init : Reachable { recs := [], nextId := 1, clock := 0 }
  | step {st st' : Store} {inp : RawInput} {r : Record} :
      Reachable st → create_transaction inp true st = .ok (r, st') →
      Reachable st'

/-! ## Client model, transliterated from the Vue component -/

/-- The form draft bound to the popup inputs:
`newRecord = ref({ amount: '', category: '', note: '', type: '支出' })`. -/
structure NewRecord where
  amount : String
  category : String
  note : String
  type : String
deriving DecidableEq, Repr

/-- The component state: `records` (the rendered list), `showAdd` (popup
visibility) and the form draft `newRecord`. -/
structure ClientState where
  records : List Record
  showAdd : Bool
  newRecord : NewRecord
deriving DecidableEq, Repr

/-- `fetchData`: `records.value = res.data` — the client stores the response
sequence as is. -/
def fetchData (cs : ClientState) (resp : List Record) : ClientState :=
  { cs with records := resp }

/-- Outcome of the awaited `axios.post` promise: fulfilled or rejected. -/
inductive PostResult where
  | ok
  | err
deriving DecidableEq, Repr

/-- `saveRecord`: awaits the `POST`; if the promise rejects the exception
propagates and the remaining statements are skipped, otherwise
`showAdd.value = false` and `fetchData()` runs. -/
def saveRecord (cs : ClientState) (post : PostResult) (resp : List Record) :
    ClientState :=
  match post with
  | .err => cs
  | .ok => fetchData { cs with showAdd := false } resp

/-- The rendered list: one cell per record with `title = item.category`,
the amount, and `description = item.note`, in the order of `records`. -/
def viewOf (r : Record) : String × Nat × String :=
  (r.category, r.amount, r.note)

/-- `render`: the template maps `v-for item in records` to cells, applying no
reordering, filtering or merging of its own. -/
def render (cs : ClientState) : List (String × Nat × String) :=
  cs.records.map viewOf

/-- The query string built by `saveRecord`, character level:
`amount=${newRecord.value.amount}&category=${newRecord.value.category}&type=支出&note=${newRecord.value.note}`,
raw template-literal interpolation with no URL encoding. -/
def queryChars (n : NewRecord) : List Char :=
  "amount=".data ++ n.amount.data ++ "&category=".data ++ n.category.data ++
    "&type=支出&note=".data ++ n.note.data

/-- The full request target of the `POST` issued by `saveRecord`. -/
def saveRecordUrl (n : NewRecord) : String :=
  "/api/records?" ++ (queryChars n).asString

/-- Split a query string at every `&`, the standard parameter separator. -/
def splitOnAmp (l : List Char) : List (List Char) :=
  match l with
  | [] => [[]]
  | c :: rest =>
    let r := splitOnAmp rest
    if c = '&' then [] :: r
    else (c :: r.headD []) :: r.tail

/-- Split one `key=value` segment at its first `=`; a segment with no `=` has
an empty value. -/
def parseSeg (l : List Char) : List Char × List Char :=
  match l with
  | [] => ([], [])
  | c :: rest =>
    if c = '=' then ([], rest)
    else ((c :: (parseSeg rest).1), (parseSeg rest).2)

/-- The key-value pairs a standard server-side query parser extracts from a
query string: split on `&`, then split each segment at its first `=`. -/
def parseQuery (q : List Char) : List (String × String) :=
  (splitOnAmp q).map fun seg => ((parseSeg seg).1.asString, (parseSeg seg).2.asString)

/-- A string free of the query metacharacters `&` and `=`, i.e. one that raw
interpolation happens to serialize faithfully. -/
def noMeta (s : String) : Prop :=
  '&' ∉ s.data ∧ '=' ∉ s.data

instance (s : String) : Decidable (noMeta s) := by
  unfold noMeta
  infer_instance

/-- The invariant maintained by the Record Store across successful creates:
every persisted identifier is below the next one to assign, every timestamp is
below the clock, and both identifiers and timestamps strictly increase along
the stored sequence. -/
def StoreInv (st : Store) : Prop :=
  (∀ r ∈ st.recs, r.id < st.nextId ∧ r.createdAt < st.clock) ∧
  st.recs.Pairwise (fun a b => a.id < b.id) ∧
  st.recs.Pairwise (fun a b => a.createdAt < b.createdAt)

/-! ## Helper lemmas -/

theorem splitOnAmp_ne_nil (l : List Char) : splitOnAmp l ≠ [] := by
  cases l with
  | nil => simp [splitOnAmp]
  | cons c rest =>
    simp only [splitOnAmp]
    split <;> simp

theorem splitOnAmp_append_amp (xs ys : List Char) :
    splitOnAmp (xs ++ '&' :: ys) = splitOnAmp xs ++ splitOnAmp ys := by
  induction xs with
  | nil => simp [splitOnAmp]
  | cons c rest ih =>
    simp only [List.cons_append, splitOnAmp, ih]
    by_cases hc : c = '&'
    · simp [hc, ih]
    · obtain ⟨s, ss, hs⟩ := List.exists_cons_of_ne_nil (splitOnAmp_ne_nil rest)
      simp [hc, ih, hs]

theorem splitOnAmp_no_amp {xs : List Char} (h : '&' ∉ xs) : splitOnAmp xs = [xs] := by
  induction xs with
  | nil => simp [splitOnAmp]
  | cons c rest ih =>
    have h1 : ¬ (c = '&') := fun hc => h (by simp [hc])
    have h2 : '&' ∉ rest := fun hm => h (by simp [hm])
    simp [splitOnAmp, h1, ih h2]

theorem parseSeg_key {k : List Char} (v : List Char) (h : '=' ∉ k) :
    parseSeg (k ++ '=' :: v) = (k, v) := by
  induction k with
  | nil => simp [parseSeg]
  | cons c rest ih =>
    have h1 : ¬ (c = '=') := fun hc => h (by simp [hc])
    have h2 : '=' ∉ rest := fun hm => h (by simp [hm])
    simp [parseSeg, h1, ih h2]

theorem queryChars_shape (n : NewRecord) :
    queryChars n =
      ("amount=".data ++ n.amount.data) ++ '&' ::
        (("category=".data ++ n.category.data) ++ '&' ::
          ("type=支出".data ++ '&' :: ("note=".data ++ n.note.data))) := by
  have h1 : "&category=".data = '&' :: "category=".data := by decide
  have h2 : "&type=支出&note=".data =
      '&' :: ("type=支出".data ++ '&' :: "note=".data) := by decide
  simp [queryChars, h1, h2, List.append_assoc]

theorem create_ok_elim {inp : RawInput} {st : Store} {r : Record} {st' : Store}
    (h : create_transaction inp true st = .ok (r, st')) :
    parseAmountCents inp.amount = some r.amount ∧
    ¬ strTrim inp.category = "" ∧
    r.id = st.nextId ∧ r.createdAt = st.clock ∧
    r.category = inp.category ∧ r.note = inp.note ∧
    r.type = inp.type.getD .expense ∧
    st'.recs = st.recs ++ [r] ∧ st'.nextId = st.nextId + 1 ∧
    st'.clock = st.clock + 1 := by
  unfold create_transaction at h
  split at h
  · exact absurd h (by simp)
  · next a hp =>
    split at h
    · exact absurd h (by simp)
    · next hc =>
      rw [if_pos rfl] at h
      simp only [Except.ok.injEq, Prod.mk.injEq] at h
      obtain ⟨h1, h2⟩ := h
      subst h1
      subst h2
      refine ⟨hp, hc, ?_⟩
      simp

theorem reachable_inv {st : Store} (h : Reachable st) : StoreInv st := by
  induction h with
  | init => exact ⟨by simp, by simp, by simp⟩
  | step hre hc ih =>
    obtain ⟨hp, hnc, hid, hca, _, _, _, hrecs, hnext, hclock⟩ := create_ok_elim hc
    obtain ⟨ih1, ih2, ih3⟩ := ih
    refine ⟨?_, ?_, ?_⟩
    · intro x hx
      rw [hrecs] at hx
      rw [hnext, hclock]
      rcases List.mem_append.mp hx with hx | hx
      · exact ⟨Nat.lt_succ_of_lt (ih1 x hx).1, Nat.lt_succ_of_lt (ih1 x hx).2⟩
      · simp only [List.mem_singleton] at hx
        subst hx
        exact ⟨by rw [hid]; exact Nat.lt_succ_self _,
               by rw [hca]; exact Nat.lt_succ_self _⟩
    · rw [hrecs]
      refine List.pairwise_append.mpr ⟨ih2, by simp, ?_⟩
      intro a ha b hb
      simp only [List.mem_singleton] at hb
      subst hb
      rw [hid]
      exact (ih1 a ha).1
    · rw [hrecs]
      refine List.pairwise_append.mpr ⟨ih3, by simp, ?_⟩
      intro a ha b hb
      simp only [List.mem_singleton] at hb
      subst hb
      rw [hca]
      exact (ih1 a ha).2

/-! ## Claim theorems -/

/-- C1: for every valid input, a successful create followed by a list yields
exactly the old sequence with one new record appended as its last element;
the new record's fields equal the supplied input after default application
(`type` defaults to expense, amount parsed to cents) and its identifier was
not previously present. -/
theorem c1_create_then_list (inp : RawInput) (st : Store) (st' : Store)
    (r : Record) (hre : Reachable st)
    (h : create_transaction inp true st = .ok (r, st')) :
    list_transactions true st' = .ok (st.recs ++ [r]) ∧
    r.category = inp.category ∧ r.note = inp.note ∧
    r.type = inp.type.getD TxType.expense ∧
    parseAmountCents inp.amount = some r.amount ∧
    r.id ∉ st.recs.map Record.id := by
  obtain ⟨hp, hnc, hid, hca, hcat, hnote, hty, hrecs, hnext, hclock⟩ :=
    create_ok_elim h
  obtain ⟨inv1, _, _⟩ := reachable_inv hre
  refine ⟨?_, hcat, hnote, hty, hp, ?_⟩
  · simp [list_transactions, hrecs]
  · intro hmem
    simp only [List.mem_map] at hmem
    obtain ⟨x, hx, hxid⟩ := hmem
    have hlt := (inv1 x hx).1
    rw [hxid, hid] at hlt
    exact Nat.lt_irrefl _ hlt

theorem c1_create_then_list_witness :
    list_transactions true
      { recs := [{ id := 1, amount := 4250, category := "餐饮", note := "",
                   type := TxType.expense, createdAt := 0 }],
        nextId := 2, clock := 1 } =
      .ok (({ recs := [], nextId := 1, clock := 0 } : Store).recs ++
        [{ id := 1, amount := 4250, category := "餐饮", note := "",
             type := TxType.expense, createdAt := 0 }]) :=
  (c1_create_then_list
    { amount := "42.50", category := "餐饮", note := "", type := none }
    { recs := [], nextId := 1, clock := 0 } _ _ Reachable.init (by decide)).1

/-- C2: create fails with `ValidationError` exactly when the amount does not
parse as a non-negative decimal or the category is empty after trimming; the
rejection is decided at the boundary (the same error results whatever the
store state), and a create with all field constraints satisfied succeeds on a
healthy store. -/
theorem c2_validation_iff (inp : RawInput) (ok : Bool) (st : Store) :
    (create_transaction inp ok st = .error .validation ↔
      parseAmountCents inp.amount = none ∨ strTrim inp.category = "") ∧
    (∀ a, parseAmountCents inp.amount = some a → ¬ strTrim inp.category = "" →
      ∃ r st', create_transaction inp true st = .ok (r, st')) := by
  constructor
  · unfold create_transaction
    cases hp : parseAmountCents inp.amount with
    | none => simp
    | some a =>
      by_cases hc : strTrim inp.category = ""
      · simp [hc]
      · cases ok <;> simp [hc]
  · intro a hp hc
    simp only [create_transaction, hp, if_neg hc, if_true]
    exact ⟨_, _, rfl⟩

theorem c2_validation_iff_witness :
    create_transaction
      { amount := "-5.00", category := "水电", note := "", type := none } true
      { recs := [], nextId := 1, clock := 0 } = .error .validation :=
  (c2_validation_iff _ true _).1.mpr (Or.inl (by decide))

/-- C3: every create request issued by `saveRecord` carries the hardcoded
parameter `type=支出`, whatever the form state: the parsed parameter list of
the query string it builds always contains the pair `("type", "支出")`, and,
for form fields free of query metacharacters, the request parameters are
exactly amount, category, the constant `type=支出`, and note. -/
theorem c3_type_hardcoded (n : NewRecord) :
    ("type", "支出") ∈ parseQuery (queryChars n) ∧
    (noMeta n.amount → noMeta n.category → noMeta n.note →
      parseQuery (queryChars n) =
        [("amount", n.amount), ("category", n.category),
         ("type", "支出"), ("note", n.note)]) := by
  have hty : splitOnAmp "type=支出".data = ["type=支出".data] :=
    splitOnAmp_no_amp (by decide)
  constructor
  · rw [queryChars_shape]
    unfold parseQuery
    rw [splitOnAmp_append_amp, splitOnAmp_append_amp, splitOnAmp_append_amp, hty]
    refine List.mem_map.mpr ⟨"type=支出".data, ?_, by decide⟩
    simp
  · intro ha hcat hn
    have hA : '&' ∉ "amount=".data := by decide
    have hC : '&' ∉ "category=".data := by decide
    have hN : '&' ∉ "note=".data := by decide
    have e1 : splitOnAmp ("amount=".data ++ n.amount.data) =
        [("amount=".data ++ n.amount.data)] :=
      splitOnAmp_no_amp (by simp [List.mem_append, hA, ha.1])
    have e2 : splitOnAmp ("category=".data ++ n.category.data) =
        [("category=".data ++ n.category.data)] :=
      splitOnAmp_no_amp (by simp [List.mem_append, hC, hcat.1])
    have e4 : splitOnAmp ("note=".data ++ n.note.data) =
        [("note=".data ++ n.note.data)] :=
      splitOnAmp_no_amp (by simp [List.mem_append, hN, hn.1])
    have p1 : parseSeg ('a' :: 'm' :: 'o' :: 'u' :: 'n' :: 't' :: '=' :: n.amount.data) =
        ("amount".data, n.amount.data) :=
      @parseSeg_key "amount".data n.amount.data (by decide)
    have p2 : parseSeg ('c' :: 'a' :: 't' :: 'e' :: 'g' :: 'o' :: 'r' :: 'y' :: '=' ::
        n.category.data) = ("category".data, n.category.data) :=
      @parseSeg_key "category".data n.category.data (by decide)
    have p4 : parseSeg ('n' :: 'o' :: 't' :: 'e' :: '=' :: n.note.data) =
        ("note".data, n.note.data) :=
      @parseSeg_key "note".data n.note.data (by decide)
    have kt : parseSeg "type=支出".data = ("type".data, "支出".data) := by decide
    rw [queryChars_shape]
    unfold parseQuery
    rw [splitOnAmp_append_amp, splitOnAmp_append_amp, splitOnAmp_append_amp,
        hty, e1, e2, e4]
    simp only [List.singleton_append, List.cons_append, List.nil_append,
      List.map_cons, List.map_nil, kt]
    rw [p1, p2, p4]
    rfl

theorem c3_type_hardcoded_witness :
    parseQuery (queryChars
      { amount := "12.00", category := "交通", note := "打车", type := "支出" }) =
      [("amount", "12.00"), ("category", "交通"),
       ("type", "支出"), ("note", "打车")] :=
  (c3_type_hardcoded _).2 (by decide) (by decide) (by decide)

/-- C4: on a healthy store `list_transactions` returns exactly the persisted
sequence with no filtering; on every reachable store that sequence is ordered
by `created_at` ascending (insertion order); and the client renders exactly
the returned sequence in the returned order, applying no reordering,
filtering or merging of its own. -/
theorem c4_list_all_in_order (st : Store) (hre : Reachable st) :
    list_transactions true st = .ok st.recs ∧
    st.recs.Pairwise (fun a b => a.createdAt < b.createdAt) ∧
    (∀ (cs : ClientState) (resp : List Record),
      render (fetchData cs resp) = resp.map viewOf) := by
  exact ⟨rfl, (reachable_inv hre).2.2, fun cs resp => rfl⟩

theorem c4_list_all_in_order_witness :
    list_transactions true { recs := [], nextId := 1, clock := 0 } =
      .ok ({ recs := [], nextId := 1, clock := 0 } : Store).recs :=
  (c4_list_all_in_order { recs := [], nextId := 1, clock := 0 } Reachable.init).1

/-- C5: the raw template-literal serialization of `saveRecord` does not
preserve field values containing query metacharacters — for the supplied note
`a&b`, the query string the client sends parses back with `note = "a"`:
the `&` in the value is read as a parameter separator, so the value supplied
at creation is not reproduced, contradicting the round-trip property. -/
theorem c5_metachar_note_corrupted :
    List.lookup "note" (parseQuery (queryChars
      { amount := "9.99", category := "餐饮", note := "a&b", type := "支出" })) =
      some "a" ∧
    ("a" : String) ≠ "a&b" ∧
    saveRecordUrl { amount := "9.99", category := "餐饮", note := "a&b", type := "支出" } =
      "/api/records?amount=9.99&category=餐饮&type=支出&note=a&b" := by
  exact ⟨by decide, by decide, by decide⟩

/-- C6: when the backing store cannot complete the write, create never
reports success — the caller receives an explicit error, a
`PersistenceError` whenever the input itself was valid — and no record
becomes visible. -/
theorem c6_persistence_not_masked (inp : RawInput) (st : Store) :
    (∀ r st', create_transaction inp false st ≠ .ok (r, st')) ∧
    (create_transaction inp false st = .error .validation ∨
     create_transaction inp false st = .error .persistence) ∧
    (∀ a, parseAmountCents inp.amount = some a → ¬ strTrim inp.category = "" →
      create_transaction inp false st = .error .persistence) := by
  unfold create_transaction
  cases hp : parseAmountCents inp.amount with
  | none =>
    refine ⟨by simp, Or.inl rfl, ?_⟩
    intro a h
    exact absurd h (by simp)
  | some a =>
    by_cases hc : strTrim inp.category = ""
    · refine ⟨by simp [hc], Or.inl (by simp [hc]), ?_⟩
      intro b _ hnc
      exact absurd hc hnc
    · refine ⟨by simp [hc], Or.inr (by simp [hc]), ?_⟩
      intro b _ _
      simp [hc]

theorem c6_persistence_not_masked_witness :
    create_transaction
      { amount := "3.00", category := "餐饮", note := "", type := none } false
      { recs := [], nextId := 1, clock := 0 } = .error .persistence :=
  (c6_persistence_not_masked _ _).2.2 300 (by decide) (by decide)

/-- C7: on every reachable store state the persisted identifiers are strictly
increasing along the stored sequence (monotone assignment), pairwise distinct,
and all below the next identifier to assign; a successful create leaves every
existing record in place and assigns exactly the next identifier, so an
identifier is never reused. -/
theorem c7_id_unique_monotone (st : Store) (hre : Reachable st) :
    st.recs.Pairwise (fun a b => a.id < b.id) ∧
    st.recs.Pairwise (fun a b => a.id ≠ b.id) ∧
    (∀ r ∈ st.recs, r.id < st.nextId) ∧
    (∀ inp r st', create_transaction inp true st = .ok (r, st') →
      st'.recs = st.recs ++ [r] ∧ r.id = st.nextId ∧
      st'.nextId = st.nextId + 1) := by
  obtain ⟨inv1, inv2, _⟩ := reachable_inv hre
  refine ⟨inv2, inv2.imp (fun h => Nat.ne_of_lt h),
    fun r hr => (inv1 r hr).1, ?_⟩
  intro inp r st' h
  obtain ⟨_, _, hid, _, _, _, _, hrecs, hnext, _⟩ := create_ok_elim h
  exact ⟨hrecs, hid, hnext⟩

theorem c7_id_unique_monotone_witness :
    List.Pairwise (fun a b => a.id < b.id)
      ({ recs := [{ id := 1, amount := 4250, category := "餐饮", note := "",
                    type := TxType.expense, createdAt := 0 }],
         nextId := 2, clock := 1 } : Store).recs :=
  (c7_id_unique_monotone _ (Reachable.step Reachable.init
    (by decide : create_transaction
      { amount := "42.50", category := "餐饮", note := "", type := none } true
      { recs := [], nextId := 1, clock := 0 } =
      .ok ({ id := 1, amount := 4250, category := "餐饮", note := "",
             type := TxType.expense, createdAt := 0 },
           { recs := [{ id := 1, amount := 4250, category := "餐饮", note := "",
                        type := TxType.expense, createdAt := 0 }],
             nextId := 2, clock := 1 })))).1

/-- C8: with no records persisted, the list operation returns an empty
sequence and not an error, and a client state holding an empty collection
renders an empty ledger. -/
theorem c8_empty_is_ok (nid c : Nat) (cs : ClientState)
    (hcs : cs.records = []) :
    list_transactions true { recs := [], nextId := nid, clock := c } =
      .ok ([] : List Record) ∧
    render cs = [] := by
  refine ⟨rfl, ?_⟩
  simp [render, hcs]

theorem c8_empty_is_ok_witness :
    list_transactions true { recs := [], nextId := 1, clock := 0 } =
      .ok ([] : List Record) ∧
    render { records := [], showAdd := false,
             newRecord := { amount := "", category := "", note := "",
                            type := "支出" } } = [] :=
  c8_empty_is_ok 1 0 _ rfl

/-- C9: client-side atomicity of `saveRecord` — when the awaited `POST`
rejects, the state is unchanged (the popup stays as it was and the displayed
records are untouched); only on a fulfilled `POST` does the popup close and
the list refetch replace `records`. -/
theorem c9_save_error_atomic (cs : ClientState) (resp : List Record) :
    saveRecord cs PostResult.err resp = cs ∧
    (saveRecord cs PostResult.ok resp).showAdd = false ∧
    (saveRecord cs PostResult.ok resp).records = resp := by
  exact ⟨rfl, rfl, rfl⟩

/-- C10: frame of a successful `saveRecord` — it changes only `showAdd` and
`records`; the form draft `newRecord` is never reset, so the amount, category
and note entered for the previous record persist in the draft. -/
theorem c10_draft_not_reset (cs : ClientState) (resp : List Record) :
    (saveRecord cs PostResult.ok resp).newRecord = cs.newRecord ∧
    saveRecord cs PostResult.ok resp =
      { cs with showAdd := false, records := resp } := by
  exact ⟨rfl, rfl⟩

example : parseAmountCents "42.50" = some 4250 := by decide
example : parseAmountCents "-5.00" = none := by decide
example : parseAmountCents "abc" = none := by decide
example : parseAmountCents "7" = some 700 := by decide
example : parseAmountCents "7.5" = some 750 := by decide
example : parseAmountCents "7.505" = none := by decide
example : parseQuery (queryChars ⟨"1", "food", "a", "支出"⟩) =
    [("amount", "1"), ("category", "food"), ("type", "支出"), ("note", "a")] := by decide
example : List.lookup "note" (parseQuery (queryChars ⟨"9.99", "餐饮", "a&b", "支出"⟩)) =
    some "a" := by decide
